import Mathlib

/-!
# Verification of the daycircle core (parser, analyser, angle mapper)

Shallow embedding of `src/daycircle/parser.py`, `src/daycircle/analyser.py`
and the `time_to_deg` function of `src/daycircle/grapher.py`.

Modelling conventions:
- Python `int` is modelled as `Int`; Python `%` on a positive modulus agrees
  with `Int.emod`, which is Lean's `%` on `Int`.
- Python `float` arithmetic in `time_to_deg` is modelled over `ℚ`; every
  quantity involved (multiples of 1/60 scaled by 15) is exactly
  representable in binary floating point at the claimed anchor values.
- Python strings are modelled as Lean `String` / `List Char`.  `str.isdigit`
  is modelled as "non-empty and every character is an ASCII digit";
  `str.strip` / `str.split` whitespace is modelled as the ASCII whitespace
  characters (space, tab, CR, LF, VT, FF).  `str.splitlines` is modelled on
  the line terminators LF, CRLF, CR, VT, FF, FS, GS, RS, NEL, LS, PS, which
  is Python's full set.
- A Python `dict[str, ...]` is modelled as an insertion-ordered association
  list with last-write-wins update, matching CPython dict semantics.
- The `Result` NamedTuple of `utils.py` is modelled as a structure pairing a
  value with an optional error; the `@result` decorator of `analyser.py`
  (try/except returning `Result(default, error=exc)`) is inlined into the
  model of `analyse`.
-/

namespace Daycircle

/-! ## Python string primitives -/

/-- ASCII whitespace recognised by `str.strip()` / `str.split()`. -/
def pyIsSpace (c : Char) : Bool :=
  c = ' ' || c = '\t' || c = '\n' || c = '\r' || c = '\x0b' || c = '\x0c'

/-- ASCII decimal digit. -/
def isAsciiDigit (c : Char) : Bool :=
  '0' ≤ c && c ≤ '9'

/-- Model of Python `str.isdigit()` on a character list (ASCII digits). -/
def pyIsDigit (l : List Char) : Bool :=
  !l.isEmpty && l.all isAsciiDigit

/-- Hex characters accepted by `DaycircleColour.from_str`. -/
def isHexChar (c : Char) : Bool :=
  ("0123456789ABCDEFabcdef".data).contains c

/-- Value of a digit string, accumulating left to right (Python `int(s)`
on an all-digit string). -/
def parseNat (l : List Char) : Nat :=
  l.foldl (fun a c => a * 10 + (c.toNat - 48)) 0

/-- Python `int(s)` on an all-digit string, as an `Int`. -/
def parseDigits (l : List Char) : Int :=
  (parseNat l : Int)

/-- The decimal digit character for `d` (callers pass `d < 10`). -/
def digitChar (d : Nat) : Char :=
  match d with
  | 0 => '0' | 1 => '1' | 2 => '2' | 3 => '3' | 4 => '4'
  | 5 => '5' | 6 => '6' | 7 => '7' | 8 => '8' | 9 => '9'
  | _ => '*'

/-- Fuelled decimal digit expansion of a natural number (fuel keeps the
recursion structural so that proofs can evaluate it by reduction). -/
def natToDigitsAux : Nat → Nat → List Char
  | 0, _ => []
  | fuel + 1, n =>
    if n < 10 then [digitChar n]
    else natToDigitsAux fuel (n / 10) ++ [digitChar (n % 10)]

/-- Decimal digits of a natural number, most significant first
(Python `str(n)` for `n ≥ 0`). -/
def natToDigits (n : Nat) : List Char :=
  natToDigitsAux (n + 1) n

/-- Zero-pad the decimal digits of `n` on the left to width `w`
(Python `f"{n:0{w}}"` for `n ≥ 0`). -/
def padZeroNat (w : Nat) (n : Nat) : List Char :=
  let ds := natToDigits n
  List.replicate (w - ds.length) '0' ++ ds

/-- Python `f"{n:0{w}}"` for an `Int` (sign counts toward the width). -/
def pyFormatInt (w : Nat) (n : Int) : List Char :=
  if n < 0 then '-' :: padZeroNat (w - 1) n.natAbs
  else padZeroNat w n.natAbs

/-- Python `s.split("-")`: split on every dash; `[""]` on empty input. -/
def splitDash : List Char → List (List Char)
  | [] => [[]]
  | c :: rest =>
    if c = '-' then [] :: splitDash rest
    else
      match splitDash rest with
      | [] => [[c]]
      | r :: rs => (c :: r) :: rs

/-- Python `s.strip()` on a character list. -/
def pyStrip (l : List Char) : List Char :=
  ((l.dropWhile pyIsSpace).reverse.dropWhile pyIsSpace).reverse

/-- Python `s.split(maxsplit=1)` applied to an already-stripped line:
`[]` when empty, `[key]` when there is no whitespace run, else
`[key, value]` with the first whitespace run removed. -/
def pySplit1 (l : List Char) : List (List Char) :=
  if l = [] then []
  else
    let k := l.takeWhile (fun c => !pyIsSpace c)
    let rest := (l.dropWhile (fun c => !pyIsSpace c)).dropWhile pyIsSpace
    if rest = [] then [k] else [k, rest]

/-- Python `str.splitlines` worker: `acc` is the current line, reversed. -/
def splitlinesAux : List Char → List Char → List (List Char)
  | [], acc => if acc = [] then [] else [acc.reverse]
  | '\r' :: '\n' :: rest, acc => acc.reverse :: splitlinesAux rest []
  | '\r' :: rest, acc => acc.reverse :: splitlinesAux rest []
  | '\n' :: rest, acc => acc.reverse :: splitlinesAux rest []
  | '\x0b' :: rest, acc => acc.reverse :: splitlinesAux rest []
  | '\x0c' :: rest, acc => acc.reverse :: splitlinesAux rest []
  | '\x1c' :: rest, acc => acc.reverse :: splitlinesAux rest []
  | '\x1d' :: rest, acc => acc.reverse :: splitlinesAux rest []
  | '\x1e' :: rest, acc => acc.reverse :: splitlinesAux rest []
  | '\x85' :: rest, acc => acc.reverse :: splitlinesAux rest []
  | ' ' :: rest, acc => acc.reverse :: splitlinesAux rest []
  | ' ' :: rest, acc => acc.reverse :: splitlinesAux rest []
  | c :: rest, acc => splitlinesAux rest (c :: acc)

/-- Python `content.splitlines()`. -/
def splitlines (s : String) : List String :=
  (splitlinesAux s.data []).map List.asString

/-! ## Fallible-value wrapper (`utils.Result`) and Python exceptions -/

/-- The exception kinds raised by the modelled code. -/
inductive PyError where
  | valueError (msg : String)
  | notImplementedError (msg : String)
deriving DecidableEq, Repr

/-- `utils.Result`: a value paired with an optional error; truthy iff the
error is absent. -/
structure Result (α : Type) where
  value : α
  error : Option PyError
deriving DecidableEq, Repr

/-! ## Scalar data model (`parser.py`) -/

/-- `DaycircleDate` NamedTuple. -/
structure DaycircleDate where
  day : Int
  month : Int
  year : Int
deriving DecidableEq, Repr

/-- `DaycircleDate.from_str` on a character list: split on `-`, require
exactly three all-digit components. -/
def dateFromChars (l : List Char) : Result DaycircleDate :=
  match splitDash l with
  | [d, m, y] =>
    if pyIsDigit d && pyIsDigit m && pyIsDigit y then
      ⟨⟨parseDigits d, parseDigits m, parseDigits y⟩, none⟩
    else
      ⟨⟨0, 0, 0⟩, some (.valueError ("invalid date format: " ++ l.asString))⟩
  | _ => ⟨⟨0, 0, 0⟩, some (.valueError ("invalid date format: " ++ l.asString))⟩

/-- `DaycircleDate.from_str`. -/
def DaycircleDate.from_str (s : String) : Result DaycircleDate :=
  dateFromChars s.data

/-- `DaycircleDate.__str__`: zero-padded `dd-mm-yyyy`. -/
def DaycircleDate.toStr (d : DaycircleDate) : String :=
  (pyFormatInt 2 d.day ++ '-' :: (pyFormatInt 2 d.month ++ '-' :: pyFormatInt 4 d.year)).asString

/-- `DaycircleColour` NamedTuple. -/
structure DaycircleColour where
  code : String
deriving DecidableEq, Repr

/-- `DaycircleColour.from_str` on a character list: length exactly six,
every character a hex digit. -/
def colourFromChars (l : List Char) : Result DaycircleColour :=
  if l.length == 6 && l.all isHexChar then
    ⟨⟨l.asString⟩, none⟩
  else
    ⟨⟨""⟩, some (.valueError ("invalid colour code: " ++ l.asString))⟩

/-- `DaycircleColour.from_str`. -/
def DaycircleColour.from_str (s : String) : Result DaycircleColour :=
  colourFromChars s.data

/-- `DaycircleColour.__str__`: `"#" + code[:6]`. -/
def DaycircleColour.toStr (c : DaycircleColour) : String :=
  ('#' :: c.code.data.take 6).asString

/-- `DaycircleTime` NamedTuple. -/
structure DaycircleTime where
  hour : Int
  minute : Int
deriving DecidableEq, Repr

/-- `DaycircleTime.from_str` on a character list: all digits and length
exactly four; first two digits the hour, last two the minute. -/
def timeFromChars (l : List Char) : Result DaycircleTime :=
  if pyIsDigit l && l.length == 4 then
    ⟨⟨parseDigits (l.take 2), parseDigits (l.drop 2)⟩, none⟩
  else
    ⟨⟨0, 0⟩, some (.valueError ("invalid time format: " ++ l.asString))⟩

/-- `DaycircleTime.from_str`. -/
def DaycircleTime.from_str (s : String) : Result DaycircleTime :=
  timeFromChars s.data

/-- `DaycircleTime.__str__`: re-zero-padded `HHMM`. -/
def DaycircleTime.toStr (t : DaycircleTime) : String :=
  (pyFormatInt 2 t.hour ++ pyFormatInt 2 t.minute).asString

/-- `DaycircleEventMarker | DaycircleEventRange`. -/
inductive DaycircleEvent where
  | marker (name : String) (time : DaycircleTime)
  | range (name : String) (start : DaycircleTime) (stop : DaycircleTime)
deriving DecidableEq, Repr

/-- `DaycircleFileData` NamedTuple (field defaults `None`, `{}`, `[]`). -/
structure DaycircleFileData where
  day : Option DaycircleDate
  event_colours : List (String × DaycircleColour)
  events : List DaycircleEvent
deriving DecidableEq, Repr

/-! ## Insertion-ordered dict model -/

/-- CPython `dict` assignment `d[k] = v`: overwrite in place (keeping the
entry's position) when the key is present, else append at the end. -/
def dictInsert : List (String × DaycircleColour) → String → DaycircleColour →
    List (String × DaycircleColour)
  | [], k, v => [(k, v)]
  | p :: rest, k, v =>
    if p.1 = k then (k, v) :: rest else p :: dictInsert rest k v

/-- CPython `d.get(k)`: the value of the first (and, by construction of
`dictInsert`, only) entry with the given key. -/
def dictGet? : List (String × DaycircleColour) → String → Option DaycircleColour
  | [], _ => none
  | p :: rest, k => if p.1 = k then some p.2 else dictGet? rest k

/-! ## The line scanner of `parse` -/

/-- The effect a single line of input has on the accumulator state. -/
inductive LineAction where
  | setDay (d : DaycircleDate)
  | setColour (name : String) (c : DaycircleColour)
  | addEvent (e : DaycircleEvent)
  | nothing
deriving DecidableEq, Repr

/-- Key handling and value handling of `parse` for a line that split into
`[key, value]`: the literal key `day` is date metadata; a key starting
with `@` is a point marker (name = key with leading `@`s stripped, as
Python `lstrip`); else a key starting with `#` is colour metadata (name =
key with leading `#`s stripped); else a time range.  A failed scalar
decode yields no action. -/
def keyAction (k v : List Char) : LineAction :=
  if k = ['d', 'a', 'y'] then
    match dateFromChars v with
    | ⟨d, none⟩ => .setDay d
    | ⟨_, some _⟩ => .nothing
  else if k.head? = some '@' then
    match timeFromChars v with
    | ⟨t, none⟩ => .addEvent (.marker ((k.dropWhile (fun c => c = '@')).asString) t)
    | ⟨_, some _⟩ => .nothing
  else if k.head? = some '#' then
    match colourFromChars v with
    | ⟨c, none⟩ => .setColour ((k.dropWhile (fun c => c = '#')).asString) c
    | ⟨_, some _⟩ => .nothing
  else
    match splitDash v with
    | [t1, t2] =>
      match timeFromChars t1, timeFromChars t2 with
      | ⟨s, none⟩, ⟨e, none⟩ => .addEvent (.range k.asString s e)
      | _, _ => .nothing
    | _ => .nothing

/-- The action of one raw input line: strip, split on the first whitespace
run, then classify; a line without a value contributes nothing. -/
def lineAction (line : String) : LineAction :=
  match pySplit1 (pyStrip line.data) with
  | [k, v] => keyAction k v
  | _ => .nothing

/-- The accumulator of `parse`: pending day, colour dict, event list. -/
structure ParseState where
  day : Option DaycircleDate
  event_colours : List (String × DaycircleColour)
  events : List DaycircleEvent
deriving DecidableEq, Repr

/-- Apply one line's action to the accumulator. -/
def applyAction (st : ParseState) : LineAction → ParseState
  | .setDay d => { st with day := some d }
  | .setColour n c => { st with event_colours := dictInsert st.event_colours n c }
  | .addEvent e => { st with events := st.events ++ [e] }
  | .nothing => st

/-- Process one line of input. -/
def processLine (st : ParseState) (line : String) : ParseState :=
  applyAction st (lineAction line)

/-- The scan over all lines, starting from the empty accumulator. -/
def parseLines (lines : List String) : ParseState :=
  lines.foldl processLine ⟨none, [], []⟩

/-- End-of-input handling of `parse`: a missing day is replaced by the
placeholder `(0,0,0)` and is fatal unless the colour-file flag is set;
the failure message is suffixed with the filename when one was given. -/
def finishParse (st : ParseState) (filename : String) (is_colour_file : Bool) :
    Result DaycircleFileData :=
  match st.day with
  | none =>
    if is_colour_file then
      ⟨⟨some ⟨0, 0, 0⟩, st.event_colours, st.events⟩, none⟩
    else
      ⟨⟨some ⟨0, 0, 0⟩, st.event_colours, st.events⟩,
        some (.valueError ("missing day metadata" ++
          (if filename = "" then "" else " for file '" ++ filename ++ "'")))⟩
  | some d => ⟨⟨some d, st.event_colours, st.events⟩, none⟩

/-- `parser.parse(content, filename, is_colour_file)`. -/
def parse (content filename : String) (is_colour_file : Bool) :
    Result DaycircleFileData :=
  finishParse (parseLines (splitlines content)) filename is_colour_file

/-! ## Observers used to state the scan invariants -/

/-- The day decoded by a line, when it is a successfully decoded day line. -/
def lineDay (line : String) : Option DaycircleDate :=
  match lineAction line with
  | .setDay d => some d
  | _ => none

/-- The colour binding decoded by a line, when it is a successfully decoded
colour line. -/
def lineColour (line : String) : Option (String × DaycircleColour) :=
  match lineAction line with
  | .setColour n c => some (n, c)
  | _ => none

/-- The event decoded by a line, when it is a successfully decoded marker
or range line. -/
def lineEvent (line : String) : Option DaycircleEvent :=
  match lineAction line with
  | .addEvent e => some e
  | _ => none

/-! ## Graph data assembly (`analyser.py`, `grapher.py`) -/

/-- `DaycircleGraphData` NamedTuple. -/
structure DaycircleGraphData where
  date : Option DaycircleDate
  date_end : Option DaycircleDate
  event_colours : List (String × DaycircleColour)
  events : List DaycircleEvent
deriving DecidableEq, Repr

/-- `analyser.analyse` together with its `@result` decorator: a raised
`ValueError` / `NotImplementedError` becomes a failed `Result` holding the
default `DaycircleGraphData()`. -/
def analyse (targets : List DaycircleFileData) : Result DaycircleGraphData :=
  match targets with
  | [] => ⟨⟨none, none, [], []⟩, some (.valueError "no targets provided")⟩
  | [t] => ⟨⟨t.day, none, t.event_colours, t.events⟩, none⟩
  | _ => ⟨⟨none, none, [], []⟩,
      some (.notImplementedError "multiple targets not yet supported")⟩

/-- `grapher.time_to_deg`: hour and minute are first reduced modulo 24 and
60, then mapped counterclockwise from the 1800h anchor. -/
def time_to_deg (t : DaycircleTime) : ℚ :=
  let h : Int := t.hour % 24
  let m : Int := t.minute % 60
  let dh : ℚ := ((270 : ℚ) - (h : ℚ) * 15) + (if h ≥ 18 then (360 : ℚ) else 0)
  let dm : ℚ := -(15 * ((m : ℚ) / 60))
  dh + dm

/-! ## Scan invariants -/

theorem asString_data (s : String) : s.data.asString = s := rfl

theorem processLine_day (st : ParseState) (l : String) :
    (processLine st l).day = (lineDay l).or st.day := by
  cases h : lineAction l <;>
    simp [processLine, applyAction, lineDay, h, Option.or]

theorem processLine_colours (st : ParseState) (l : String) :
    (processLine st l).event_colours =
      match lineColour l with
      | some (k, v) => dictInsert st.event_colours k v
      | none => st.event_colours := by
  cases h : lineAction l <;>
    simp [processLine, applyAction, lineColour, h]

theorem processLine_events (st : ParseState) (l : String) :
    (processLine st l).events = st.events ++ (lineEvent l).toList := by
  cases h : lineAction l <;>
    simp [processLine, applyAction, lineEvent, h]

theorem getLast?_map_cons_or {α β : Type} (f : α → β) (a : α) :
    ∀ (l : List α) (y : Option β),
      (((a :: l).getLast?).map f).or y = ((l.getLast?).map f).or (some (f a)) := by
  intro l
  induction l generalizing a with
  | nil => intro y; simp [List.getLast?]
  | cons b bs ih =>
    intro y
    rw [List.getLast?_cons_cons]
    rw [ih b y, ih b (some (f a))]

theorem getLast?_cons_or {α : Type} (a : α) (l : List α) (y : Option α) :
    ((a :: l).getLast?).or y = (l.getLast?).or (some a) := by
  have h := getLast?_map_cons_or (fun x => x) a l y
  simpa using h

theorem foldl_day (lines : List String) :
    ∀ st : ParseState,
      (List.foldl processLine st lines).day =
        ((lines.filterMap lineDay).getLast?).or st.day := by
  induction lines with
  | nil => intro st; simp
  | cons l ls ih =>
    intro st
    rw [List.foldl_cons, ih (processLine st l), processLine_day]
    rw [List.filterMap_cons]
    cases h : lineDay l with
    | none => simp
    | some d => simp [getLast?_cons_or]

theorem foldl_events (lines : List String) :
    ∀ st : ParseState,
      (List.foldl processLine st lines).events =
        st.events ++ lines.filterMap lineEvent := by
  induction lines with
  | nil => intro st; simp
  | cons l ls ih =>
    intro st
    rw [List.foldl_cons, ih (processLine st l), processLine_events]
    rw [List.filterMap_cons]
    cases h : lineEvent l with
    | none => simp
    | some e => simp

/-! ## Dict lemmas -/

theorem dictGet?_insert (k name : String) (v : DaycircleColour) :
    ∀ d : List (String × DaycircleColour),
      dictGet? (dictInsert d k v) name =
        if name = k then some v else dictGet? d name := by
  intro d
  induction d with
  | nil =>
    by_cases h : name = k
    · subst h; simp [dictInsert, dictGet?]
    · have h' : ¬k = name := fun he => h he.symm
      simp [dictInsert, dictGet?, h, h']
  | cons a tl ih =>
    by_cases hk : a.1 = k
    · by_cases hn : name = k
      · subst hn; simp [dictInsert, dictGet?, hk]
      · have h' : ¬k = name := fun he => hn he.symm
        have ha : ¬a.1 = name := fun he => hn (by rw [← he, hk])
        simp [dictInsert, dictGet?, hk, hn, ha, h']
    · by_cases hn : a.1 = name
      · have : ¬name = k := fun he => hk (by rw [hn, he])
        simp [dictInsert, dictGet?, hk, hn, this]
      · simp [dictInsert, dictGet?, hk, hn, ih]

theorem foldl_colours (name : String) (lines : List String) :
    ∀ st : ParseState,
      dictGet? (List.foldl processLine st lines).event_colours name =
        ((((lines.filterMap lineColour).filter
            (fun p => p.1 == name)).getLast?).map (fun p => p.2)).or
          (dictGet? st.event_colours name) := by
  induction lines with
  | nil => intro st; simp
  | cons l ls ih =>
    intro st
    rw [List.foldl_cons, ih (processLine st l), processLine_colours]
    rw [List.filterMap_cons]
    cases h : lineColour l with
    | none => simp
    | some kv =>
      obtain ⟨k, v⟩ := kv
      rw [dictGet?_insert]
      by_cases hk : k = name
      · subst hk
        simp [List.filter_cons, getLast?_map_cons_or]
      · have : ((k, v).1 == name) = false := by simpa using hk
        simp [List.filter_cons, this, Ne.symm hk]

/-! ## Decimal formatting lemmas -/

theorem data_asString (l : List Char) : l.asString.data = l := rfl

theorem natToDigitsAux_fuel (n : Nat) :
    ∀ f1 f2, n < f1 → n < f2 → natToDigitsAux f1 n = natToDigitsAux f2 n := by
  induction n using Nat.strong_induction_on with
  | _ n ih =>
    intro f1 f2 h1 h2
    match f1, f2 with
    | g1 + 1, g2 + 1 =>
      simp only [natToDigitsAux]
      by_cases h : n < 10
      · simp [h]
      · simp only [h, if_false]
        have hd : n / 10 < n := Nat.div_lt_self (by omega) (by omega)
        rw [ih (n / 10) hd g1 g2 (by omega) (by omega)]

theorem natToDigits_unfold (n : Nat) :
    natToDigits n =
      if n < 10 then [digitChar n]
      else natToDigits (n / 10) ++ [digitChar (n % 10)] := by
  by_cases h : n < 10
  · simp only [natToDigits, natToDigitsAux, h, if_true]
  · have hd : n / 10 < n := Nat.div_lt_self (by omega) (by omega)
    have step : natToDigits n = natToDigitsAux n (n / 10) ++ [digitChar (n % 10)] := by
      simp only [natToDigits, natToDigitsAux, h, if_false]
    rw [step, natToDigitsAux_fuel (n / 10) n (n / 10 + 1) hd (Nat.lt_succ_self _),
      if_neg h]
    rfl

theorem digitChar_toNat (d : Nat) (h : d < 10) : (digitChar d).toNat - 48 = d := by
  interval_cases d <;> decide

theorem digitChar_isDigit (d : Nat) (h : d < 10) :
    isAsciiDigit (digitChar d) = true := by
  interval_cases d <;> decide

theorem natToDigits_ne_nil (n : Nat) : natToDigits n ≠ [] := by
  rw [natToDigits_unfold]
  by_cases h : n < 10 <;> simp [h]

theorem natToDigits_all_digits (n : Nat) :
    ∀ c ∈ natToDigits n, isAsciiDigit c = true := by
  induction n using Nat.strong_induction_on with
  | _ n ih =>
    rw [natToDigits_unfold]
    by_cases h : n < 10
    · simp only [h, if_true, List.mem_singleton]
      intro c hc
      subst hc
      exact digitChar_isDigit n h
    · simp only [h, if_false]
      intro c hc
      rcases List.mem_append.mp hc with h1 | h1
      · exact ih (n / 10) (Nat.div_lt_self (by omega) (by omega)) c h1
      · rw [List.mem_singleton] at h1
        subst h1
        exact digitChar_isDigit _ (Nat.mod_lt _ (by omega))

theorem parseNat_append_digit (l : List Char) (c : Char) :
    parseNat (l ++ [c]) = parseNat l * 10 + (c.toNat - 48) := by
  simp [parseNat, List.foldl_append]

theorem parseNat_natToDigits (n : Nat) : parseNat (natToDigits n) = n := by
  induction n using Nat.strong_induction_on with
  | _ n ih =>
    rw [natToDigits_unfold]
    by_cases h : n < 10
    · simp only [h, if_true]
      show 0 * 10 + ((digitChar n).toNat - 48) = n
      rw [digitChar_toNat n h]
      omega
    · simp only [h, if_false]
      rw [parseNat_append_digit,
        ih (n / 10) (Nat.div_lt_self (by omega) (by omega)),
        digitChar_toNat _ (Nat.mod_lt _ (by omega))]
      omega

theorem parseNat_replicate_zero (k : Nat) (l : List Char) :
    parseNat (List.replicate k '0' ++ l) = parseNat l := by
  induction k with
  | zero => simp
  | succ k ih =>
    rw [List.replicate_succ, List.cons_append]
    show List.foldl (fun a c => a * 10 + (c.toNat - 48))
      (0 * 10 + ('0'.toNat - 48)) (List.replicate k '0' ++ l) = parseNat l
    have h0 : 0 * 10 + ('0'.toNat - 48) = 0 := by decide
    rw [h0]
    exact ih

theorem parseNat_padZeroNat (w n : Nat) : parseNat (padZeroNat w n) = n := by
  unfold padZeroNat
  rw [parseNat_replicate_zero, parseNat_natToDigits]

theorem padZeroNat_all_digits (w n : Nat) :
    ∀ c ∈ padZeroNat w n, isAsciiDigit c = true := by
  intro c hc
  unfold padZeroNat at hc
  rcases List.mem_append.mp hc with h1 | h1
  · rw [List.eq_of_mem_replicate h1]
    decide
  · exact natToDigits_all_digits n c h1

theorem padZeroNat_ne_nil (w n : Nat) : padZeroNat w n ≠ [] := by
  unfold padZeroNat
  intro h
  exact natToDigits_ne_nil n (List.append_eq_nil.mp h).2

theorem pyIsDigit_padZeroNat (w n : Nat) : pyIsDigit (padZeroNat w n) = true := by
  unfold pyIsDigit
  rw [Bool.and_eq_true, List.all_eq_true]
  refine ⟨?_, padZeroNat_all_digits w n⟩
  cases h : padZeroNat w n with
  | nil => exact absurd h (padZeroNat_ne_nil w n)
  | cons a l => simp

theorem natToDigits_length_le_two (n : Nat) (h : n ≤ 99) :
    (natToDigits n).length ≤ 2 := by
  rw [natToDigits_unfold]
  by_cases h1 : n < 10
  · simp [h1]
  · have h2 : n / 10 < 10 := by omega
    rw [natToDigits_unfold (n / 10)]
    simp [h1, h2]

theorem padZeroNat_length_two (n : Nat) (h : n ≤ 99) :
    (padZeroNat 2 n).length = 2 := by
  unfold padZeroNat
  have := natToDigits_length_le_two n h
  rw [List.length_append, List.length_replicate]
  omega

theorem digit_ne_dash (c : Char) (h : isAsciiDigit c = true) : c ≠ '-' := by
  intro he
  subst he
  simp [isAsciiDigit] at h

/-! ## Dash splitting lemmas -/

theorem splitDash_no_dash (l : List Char) (h : ∀ c ∈ l, c ≠ '-') :
    splitDash l = [l] := by
  induction l with
  | nil => rfl
  | cons c rest ih =>
    have hc : c ≠ '-' := h c (by simp)
    have h2 := ih (fun x hx => h x (by simp [hx]))
    simp [splitDash, hc, h2]

theorem splitDash_append (a : List Char) (h : ∀ c ∈ a, c ≠ '-') :
    ∀ (l : List Char) (r : List Char) (rs : List (List Char)),
      splitDash l = r :: rs → splitDash (a ++ l) = (a ++ r) :: rs := by
  induction a with
  | nil => intro l r rs h'; simpa using h'
  | cons c tl ih =>
    intro l r rs h'
    have hc : c ≠ '-' := h c (by simp)
    have h2 := ih (fun x hx => h x (by simp [hx])) l r rs h'
    simp [splitDash, hc, h2]

theorem splitDash_three (d m y : List Char)
    (hd : ∀ c ∈ d, c ≠ '-') (hm : ∀ c ∈ m, c ≠ '-') (hy : ∀ c ∈ y, c ≠ '-') :
    splitDash (d ++ '-' :: (m ++ '-' :: y)) = [d, m, y] := by
  have h3 : splitDash y = [y] := splitDash_no_dash y hy
  have h2 : splitDash ('-' :: y) = [] :: [y] := by simp [splitDash, h3]
  have h1 : splitDash (m ++ '-' :: y) = (m ++ []) :: [y] :=
    splitDash_append m hm ('-' :: y) [] [y] h2
  rw [List.append_nil] at h1
  have h0 : splitDash ('-' :: (m ++ '-' :: y)) = [] :: m :: [y] := by
    simp [splitDash, h1]
  have := splitDash_append d hd ('-' :: (m ++ '-' :: y)) [] (m :: [y]) h0
  rw [List.append_nil] at this
  exact this

/-! ## Round-trip lemmas -/

theorem pyFormatInt_nonneg (w : Nat) (n : Int) (h : 0 ≤ n) :
    pyFormatInt w n = padZeroNat w n.natAbs := by
  unfold pyFormatInt
  rw [if_neg (by omega)]

theorem date_roundtrip (da mo yr : Int) (h1 : 0 ≤ da) (h2 : 0 ≤ mo)
    (h3 : 0 ≤ yr) :
    DaycircleDate.from_str (DaycircleDate.toStr ⟨da, mo, yr⟩) =
      ⟨⟨da, mo, yr⟩, none⟩ := by
  unfold DaycircleDate.from_str DaycircleDate.toStr
  rw [data_asString, pyFormatInt_nonneg 2 da h1, pyFormatInt_nonneg 2 mo h2,
    pyFormatInt_nonneg 4 yr h3]
  have hnd : ∀ (w m : Nat), ∀ c ∈ padZeroNat w m, c ≠ '-' :=
    fun w m c hc => digit_ne_dash c (padZeroNat_all_digits w m c hc)
  have hsplit := splitDash_three (padZeroNat 2 da.natAbs)
    (padZeroNat 2 mo.natAbs) (padZeroNat 4 yr.natAbs)
    (hnd 2 _) (hnd 2 _) (hnd 4 _)
  unfold dateFromChars
  rw [hsplit]
  simp only [pyIsDigit_padZeroNat, Bool.and_self, if_true]
  simp [parseDigits, parseNat_padZeroNat, Int.natAbs_of_nonneg, h1, h2, h3]

theorem time_roundtrip (hh mm : Int) (h1 : 0 ≤ hh) (h2 : hh ≤ 99)
    (h3 : 0 ≤ mm) (h4 : mm ≤ 99) :
    DaycircleTime.from_str (DaycircleTime.toStr ⟨hh, mm⟩) =
      ⟨⟨hh, mm⟩, none⟩ := by
  unfold DaycircleTime.from_str DaycircleTime.toStr
  rw [data_asString, pyFormatInt_nonneg 2 hh h1, pyFormatInt_nonneg 2 mm h3]
  have lh : (padZeroNat 2 hh.natAbs).length = 2 := padZeroNat_length_two _ (by omega)
  have lm : (padZeroNat 2 mm.natAbs).length = 2 := padZeroNat_length_two _ (by omega)
  have hdig : pyIsDigit (padZeroNat 2 hh.natAbs ++ padZeroNat 2 mm.natAbs) = true := by
    unfold pyIsDigit
    rw [Bool.and_eq_true, List.all_eq_true]
    constructor
    · cases hpz : padZeroNat 2 hh.natAbs with
      | nil => exact absurd hpz (padZeroNat_ne_nil _ _)
      | cons a l => simp
    · intro c hc
      rcases List.mem_append.mp hc with h | h
      · exact padZeroNat_all_digits _ _ c h
      · exact padZeroNat_all_digits _ _ c h
  have hlen : (padZeroNat 2 hh.natAbs ++ padZeroNat 2 mm.natAbs).length = 4 := by
    rw [List.length_append, lh, lm]
  unfold timeFromChars
  rw [if_pos (by rw [hdig, hlen]; rfl)]
  rw [List.take_left' lh, List.drop_left' lh]
  simp [parseDigits, parseNat_padZeroNat, Int.natAbs_of_nonneg, h1, h3]

theorem colour_roundtrip (code : List Char) (hlen : code.length = 6)
    (hhex : ∀ c ∈ code, isHexChar c = true) :
    DaycircleColour.from_str
        (((DaycircleColour.toStr ⟨code.asString⟩).data.drop 1).asString) =
      ⟨⟨code.asString⟩, none⟩ := by
  unfold DaycircleColour.toStr DaycircleColour.from_str
  rw [data_asString, data_asString, data_asString]
  have htake : code.take 6 = code := by rw [← hlen, List.take_length]
  rw [List.drop_one, List.tail_cons, htake]
  unfold colourFromChars
  rw [if_pos]
  rw [Bool.and_eq_true, List.all_eq_true]
  exact ⟨by rw [hlen]; rfl, hhex⟩

/-! ## Angle mapper lemmas -/

theorem time_to_deg_formula (h m : Int) (hh0 : 0 ≤ h) (hh1 : h ≤ 23)
    (hm0 : 0 ≤ m) (hm1 : m ≤ 59) :
    time_to_deg ⟨h, m⟩ =
      ((270 : ℚ) - 15 * (h : ℚ)) + (if h ≥ 18 then (360 : ℚ) else 0) -
        15 * ((m : ℚ) / 60) := by
  simp only [time_to_deg]
  rw [Int.emod_eq_of_lt hh0 (by omega), Int.emod_eq_of_lt hm0 (by omega)]
  split_ifs with hc
  · ring
  · ring

/-! ## Claim theorems -/

/-- C1: on an in-range time (hour in [0,23], minute in [0,59]) the angle
mapper satisfies the spec's general formula
`(270 - 15*h) + (360 if h >= 18 else 0) - 15*(m/60)` and hits the anchors:
`angle(18,0) ≡ 0 (mod 360)`, `angle(0,0) = 270`, `angle(12,0) = 90`,
`angle(6,0) = 180`, `angle(18,30) = 352.5`. -/
theorem claim_C1_angle_anchors (h m : Int) (hh : 0 ≤ h ∧ h ≤ 23)
    (hm : 0 ≤ m ∧ m ≤ 59) :
    time_to_deg ⟨h, m⟩ =
        ((270 : ℚ) - 15 * (h : ℚ)) + (if h ≥ 18 then (360 : ℚ) else 0) -
          15 * ((m : ℚ) / 60)
    ∧ (∃ k : ℤ, time_to_deg ⟨18, 0⟩ = 360 * (k : ℚ))
    ∧ time_to_deg ⟨0, 0⟩ = 270
    ∧ time_to_deg ⟨12, 0⟩ = 90
    ∧ time_to_deg ⟨6, 0⟩ = 180
    ∧ time_to_deg ⟨18, 30⟩ = 352.5 := by
  refine ⟨time_to_deg_formula h m hh.1 hh.2 hm.1 hm.2, ⟨1, ?_⟩, ?_, ?_, ?_, ?_⟩ <;>
    norm_num [time_to_deg]

/-- Witness for C1 at the concrete in-range time 18:30. -/
theorem claim_C1_angle_anchors_witness :
    time_to_deg ⟨18, 30⟩ =
      ((270 : ℚ) - 15 * (((18 : ℤ) : ℚ))) +
        (if (18 : ℤ) ≥ 18 then (360 : ℚ) else 0) -
        15 * ((((30 : ℤ) : ℚ)) / 60) :=
  (claim_C1_angle_anchors 18 30 ⟨by decide, by decide⟩ ⟨by decide, by decide⟩).1

/-- C9: the angle mapper is total over every time value; it first reduces
the hour modulo 24 and the minute modulo 60, so for all integers `h`, `m`
it agrees with the mapper applied to `(h mod 24, m mod 60)`; in particular
Time(99,99) maps to the same angle as Time(3,39). -/
theorem claim_C9_angle_total (h m : Int) :
    time_to_deg ⟨h, m⟩ = time_to_deg ⟨h % 24, m % 60⟩
    ∧ time_to_deg ⟨99, 99⟩ = time_to_deg ⟨3, 39⟩ := by
  constructor
  · simp only [time_to_deg]
    rw [Int.emod_emod_of_dvd h (dvd_refl 24), Int.emod_emod_of_dvd m (dvd_refl 60)]
  · norm_num [time_to_deg]

/-- C6: the time decoder succeeds exactly on strings of exactly four ASCII
digits, in which case the hour is the integer value of the first two digits
and the minute that of the last two, with no 0-23/0-59 range check (so
"9999" decodes to Time(99,99)); on every other string it fails with the
message `"invalid time format: "` followed by the input. -/
theorem claim_C6_time_decoder (s : String) :
    ((DaycircleTime.from_str s).error = none ↔
        (s.data.length = 4 ∧ ∀ c ∈ s.data, isAsciiDigit c = true))
    ∧ ((s.data.length = 4 ∧ ∀ c ∈ s.data, isAsciiDigit c = true) →
        DaycircleTime.from_str s =
          ⟨⟨parseDigits (s.data.take 2), parseDigits (s.data.drop 2)⟩, none⟩)
    ∧ (¬(s.data.length = 4 ∧ ∀ c ∈ s.data, isAsciiDigit c = true) →
        DaycircleTime.from_str s =
          ⟨⟨0, 0⟩, some (.valueError ("invalid time format: " ++ s))⟩)
    ∧ DaycircleTime.from_str "9999" = ⟨⟨99, 99⟩, none⟩ := by
  by_cases hc : (pyIsDigit s.data && s.data.length == 4) = true
  · have heq : DaycircleTime.from_str s =
        ⟨⟨parseDigits (s.data.take 2), parseDigits (s.data.drop 2)⟩, none⟩ := by
      unfold DaycircleTime.from_str timeFromChars
      rw [if_pos hc]
    have hprop : s.data.length = 4 ∧ ∀ c ∈ s.data, isAsciiDigit c = true := by
      have h1 : pyIsDigit s.data = true ∧ s.data.length = 4 := by simpa using hc
      have h2 : (!s.data.isEmpty) = true ∧ s.data.all isAsciiDigit = true := by
        have := h1.1
        unfold pyIsDigit at this
        simpa using this
      exact ⟨h1.2, List.all_eq_true.mp h2.2⟩
    refine ⟨?_, fun _ => heq, fun hn => absurd hprop hn, by decide⟩
    rw [heq]
    simpa using hprop
  · have heq : DaycircleTime.from_str s =
        ⟨⟨0, 0⟩, some (.valueError ("invalid time format: " ++ s))⟩ := by
      unfold DaycircleTime.from_str timeFromChars
      rw [if_neg hc, asString_data]
    have hprop : ¬(s.data.length = 4 ∧ ∀ c ∈ s.data, isAsciiDigit c = true) := by
      intro hp
      obtain ⟨hlen, hall⟩ := hp
      apply hc
      rw [Bool.and_eq_true]
      constructor
      · unfold pyIsDigit
        rw [Bool.and_eq_true, List.all_eq_true]
        refine ⟨?_, hall⟩
        cases hd : s.data with
        | nil => rw [hd] at hlen; simp at hlen
        | cons a l => simp
      · simp [hlen]
    refine ⟨?_, fun hp => absurd hp hprop, fun _ => heq, by decide⟩
    rw [heq]
    simpa using hprop

/-- Witness for C6 at the concrete input "9999". -/
theorem claim_C6_time_decoder_witness :
    DaycircleTime.from_str "9999" = ⟨⟨99, 99⟩, none⟩ :=
  (claim_C6_time_decoder "9999").2.2.2

/-- C5: the graph-data assembler fails with "no targets provided" on an
empty sequence, on a singleton succeeds copying the document's day,
colours and events with no end date, and on two or more documents fails
with the not-implemented kind "multiple targets not yet supported". -/
theorem claim_C5_analyse_arity :
    analyse [] = ⟨⟨none, none, [], []⟩, some (.valueError "no targets provided")⟩
    ∧ (∀ doc : DaycircleFileData,
        analyse [doc] = ⟨⟨doc.day, none, doc.event_colours, doc.events⟩, none⟩)
    ∧ (∀ (d1 d2 : DaycircleFileData) (rest : List DaycircleFileData),
        analyse (d1 :: d2 :: rest) =
          ⟨⟨none, none, [], []⟩,
            some (.notImplementedError "multiple targets not yet supported")⟩) :=
  ⟨rfl, fun _ => rfl, fun _ _ _ => rfl⟩

/-- C2 counterexample: the colour round-trip fails as stated — formatting
Colour("aabbcc") gives "#aabbcc" (seven characters), which the decoder
rejects, so format-then-decode does not return the original colour. -/
theorem claim_C2_roundtrip_counterexample :
    ¬ ((DaycircleColour.from_str (DaycircleColour.toStr ⟨"aabbcc"⟩)).error = none ∧
       (DaycircleColour.from_str (DaycircleColour.toStr ⟨"aabbcc"⟩)).value =
         ⟨"aabbcc"⟩) := by
  decide

/-- C2 (amended): Date and Time round-trip exactly as claimed (components
in the digit-width range); a Colour formats to `"#"` plus its code, and
decoding succeeds only on the code portion: stripping the leading `"#"`
from the formatted form and then decoding yields the original colour,
whereas decoding the full `"#"`-prefixed form fails. -/
theorem claim_C2_roundtrip_amended :
    (∀ da mo yr : Int, 0 ≤ da → da ≤ 99 → 0 ≤ mo → mo ≤ 99 → 0 ≤ yr → yr ≤ 9999 →
      DaycircleDate.from_str (DaycircleDate.toStr ⟨da, mo, yr⟩) =
        ⟨⟨da, mo, yr⟩, none⟩)
    ∧ (∀ hh mm : Int, 0 ≤ hh → hh ≤ 99 → 0 ≤ mm → mm ≤ 99 →
      DaycircleTime.from_str (DaycircleTime.toStr ⟨hh, mm⟩) = ⟨⟨hh, mm⟩, none⟩)
    ∧ (∀ code : List Char, code.length = 6 → (∀ c ∈ code, isHexChar c = true) →
      DaycircleColour.from_str
          (((DaycircleColour.toStr ⟨code.asString⟩).data.drop 1).asString) =
        ⟨⟨code.asString⟩, none⟩) :=
  ⟨fun da mo yr h1 _ h2 _ h3 _ => date_roundtrip da mo yr h1 h2 h3,
   fun hh mm h1 h2 h3 h4 => time_roundtrip hh mm h1 h2 h3 h4,
   fun code hlen hhex => colour_roundtrip code hlen hhex⟩

/-- Witness for the amended C2 at Date(1,2,2023), Time(6,30) and the
colour code "aabbcc". -/
theorem claim_C2_roundtrip_amended_witness :
    DaycircleDate.from_str (DaycircleDate.toStr ⟨1, 2, 2023⟩) =
        ⟨⟨1, 2, 2023⟩, none⟩
    ∧ DaycircleTime.from_str (DaycircleTime.toStr ⟨6, 30⟩) = ⟨⟨6, 30⟩, none⟩
    ∧ DaycircleColour.from_str
          (((DaycircleColour.toStr ⟨("aabbcc".data).asString⟩).data.drop 1).asString) =
        ⟨⟨("aabbcc".data).asString⟩, none⟩ :=
  ⟨claim_C2_roundtrip_amended.1 1 2 2023 (by decide) (by decide) (by decide)
      (by decide) (by decide) (by decide),
   claim_C2_roundtrip_amended.2.1 6 30 (by decide) (by decide) (by decide)
      (by decide),
   claim_C2_roundtrip_amended.2.2 "aabbcc".data (by decide) (by decide)⟩

/-- C3: when no day line ever decoded successfully, parsing with the
colour-file flag unset fails with "missing day metadata" (suffixed with
" for file '<filename>'" exactly when a filename was given) while the
attached value still holds the placeholder day (0,0,0) and all collected
colours and events; parsing the same input with the flag set succeeds
with the same placeholder day, colours and events. -/
theorem claim_C3_missing_day (content filename : String)
    (hnoday : ∀ l ∈ splitlines content, lineDay l = none) :
    (parse content filename false).error =
        some (.valueError ("missing day metadata" ++
          (if filename = "" then "" else " for file '" ++ filename ++ "'")))
    ∧ (parse content filename false).value =
        ⟨some ⟨0, 0, 0⟩, (parseLines (splitlines content)).event_colours,
          (parseLines (splitlines content)).events⟩
    ∧ parse content filename true =
        ⟨⟨some ⟨0, 0, 0⟩, (parseLines (splitlines content)).event_colours,
          (parseLines (splitlines content)).events⟩, none⟩ := by
  have hday : (parseLines (splitlines content)).day = none := by
    unfold parseLines
    rw [foldl_day]
    rw [List.filterMap_eq_nil_iff.mpr hnoday]
    rfl
  unfold parse finishParse
  rw [hday]
  exact ⟨rfl, rfl, rfl⟩

/-- Witness for C3 on a document with one marker line and no day line. -/
theorem claim_C3_missing_day_witness :
    (parse "@wake 0630" "log.dc" false).error =
        some (.valueError ("missing day metadata" ++
          (if ("log.dc" : String) = "" then ""
           else " for file '" ++ "log.dc" ++ "'")))
    ∧ (parse "@wake 0630" "log.dc" false).value =
        ⟨some ⟨0, 0, 0⟩, (parseLines (splitlines "@wake 0630")).event_colours,
          (parseLines (splitlines "@wake 0630")).events⟩
    ∧ parse "@wake 0630" "log.dc" true =
        ⟨⟨some ⟨0, 0, 0⟩, (parseLines (splitlines "@wake 0630")).event_colours,
          (parseLines (splitlines "@wake 0630")).events⟩, none⟩ :=
  claim_C3_missing_day "@wake 0630" "log.dc" (by decide)

/-- C4: a line whose scalar decode fails contributes nothing: removing it
from the line sequence leaves the parse result (success or failure, and
all carried data) unchanged, so it never aborts the scan or causes a
failure by itself; concretely, a document with one well-formed day line
and one colour line with a non-hex value parses successfully with the day
set and the bad colour name absent from the colour mapping. -/
theorem claim_C4_bad_line_dropped (ls1 ls2 : List String) (l : String)
    (hl : lineAction l = .nothing) (filename : String) (flag : Bool) :
    finishParse (parseLines (ls1 ++ l :: ls2)) filename flag =
        finishParse (parseLines (ls1 ++ ls2)) filename flag
    ∧ parse "day 01-02-2023\n#ev GGGZZZ" "" false =
        ⟨⟨some ⟨1, 2, 2023⟩, [], []⟩, none⟩ := by
  constructor
  · have hst : parseLines (ls1 ++ l :: ls2) = parseLines (ls1 ++ ls2) := by
      unfold parseLines
      rw [List.foldl_append, List.foldl_append, List.foldl_cons]
      congr 1
      unfold processLine
      rw [hl]
      rfl
    rw [hst]
  · decide

/-- Witness for C4: dropping the malformed colour line "#ev GGGZZZ". -/
theorem claim_C4_bad_line_dropped_witness :
    finishParse (parseLines (["day 01-02-2023"] ++ "#ev GGGZZZ" :: [])) "" false =
        finishParse (parseLines (["day 01-02-2023"] ++ [])) "" false
    ∧ parse "day 01-02-2023\n#ev GGGZZZ" "" false =
        ⟨⟨some ⟨1, 2, 2023⟩, [], []⟩, none⟩ :=
  claim_C4_bad_line_dropped ["day 01-02-2023"] [] "#ev GGGZZZ" (by decide) "" false

/-- C7: for any input and flag, the events carried by the parse result are
exactly the successfully decoded marker and range lines in source order,
and for every name the colour mapping holds the colour of the last
successfully decoded colour line for that name (last write wins). -/
theorem claim_C7_order_and_last_write (content filename : String) (flag : Bool)
    (name : String) :
    (parse content filename flag).value.events =
        (splitlines content).filterMap lineEvent
    ∧ dictGet? (parse content filename flag).value.event_colours name =
        ((((splitlines content).filterMap lineColour).filter
            (fun p => p.1 == name)).getLast?).map (fun p => p.2) := by
  have hval : (parse content filename flag).value.events =
      (parseLines (splitlines content)).events ∧
      (parse content filename flag).value.event_colours =
        (parseLines (splitlines content)).event_colours := by
    unfold parse finishParse
    cases (parseLines (splitlines content)).day with
    | none => cases flag <;> exact ⟨rfl, rfl⟩
    | some d => exact ⟨rfl, rfl⟩
  have hev : (parseLines (splitlines content)).events =
      (splitlines content).filterMap lineEvent := by
    unfold parseLines
    rw [foldl_events]
    rfl
  have hcol : dictGet? (parseLines (splitlines content)).event_colours name =
      ((((splitlines content).filterMap lineColour).filter
          (fun p => p.1 == name)).getLast?).map (fun p => p.2) := by
    unfold parseLines
    rw [foldl_colours]
    show _ = _
    rw [show dictGet? ([] : List (String × DaycircleColour)) name = none from rfl,
      Option.or_none]
  exact ⟨hval.1.trans hev, by rw [hval.2, hcol]⟩

/-- C10: the file data carried by the parse result, success or failure,
always has a concrete day: the last successfully decoded day line when one
exists, and the placeholder Date(0,0,0) otherwise — never the absent
`None` default of the type. -/
theorem claim_C10_day_always_concrete (content filename : String) (flag : Bool) :
    (parse content filename flag).value.day =
      some (match ((splitlines content).filterMap lineDay).getLast? with
            | some d => d
            | none => ⟨0, 0, 0⟩) := by
  have hday : (parseLines (splitlines content)).day =
      ((splitlines content).filterMap lineDay).getLast? := by
    unfold parseLines
    rw [foldl_day]
    exact Option.or_none
  unfold parse finishParse
  rw [hday]
  cases ((splitlines content).filterMap lineDay).getLast? with
  | none => cases flag <;> rfl
  | some d => rfl

/-- C8 counterexample: the key "@@wake" yields the marker name "wake", not
"@wake" — the prefix strip removes all leading prefix characters, not a
single one. -/
theorem claim_C8_prefix_counterexample :
    (parseLines ["@@wake 0630"]).events = [.marker "wake" ⟨6, 30⟩]
    ∧ (parseLines ["@@wake 0630"]).events ≠ [.marker "@wake" ⟨6, 30⟩] := by
  constructor <;> decide

/-- C8 (amended): for a line split into (key, value) with key not "day", a
key beginning with `@` is classified as a point-marker, else one beginning
with `#` as colour-metadata, and in both cases the stored name is the key
with ALL leading prefix characters stripped (Python `lstrip`), so "@@wake"
yields the marker name "wake"; a key with neither prefix defaults to a
time-range keeping the full key as name. -/
theorem claim_C8_prefix_amended (k v : List Char) (hday : k ≠ ['d', 'a', 'y']) :
    (k.head? = some '@' →
      keyAction k v = .nothing ∨
        ∃ t, keyAction k v =
          .addEvent (.marker ((k.dropWhile (fun c => c = '@')).asString) t))
    ∧ (k.head? ≠ some '@' → k.head? = some '#' →
      keyAction k v = .nothing ∨
        ∃ c, keyAction k v =
          .setColour ((k.dropWhile (fun c => c = '#')).asString) c)
    ∧ (k.head? ≠ some '@' → k.head? ≠ some '#' →
      keyAction k v = .nothing ∨
        ∃ s e, keyAction k v = .addEvent (.range k.asString s e))
    ∧ (parseLines ["@@wake 0630"]).events = [.marker "wake" ⟨6, 30⟩] := by
  refine ⟨?_, ?_, ?_, by decide⟩
  · intro hat
    unfold keyAction
    rw [if_neg hday, if_pos hat]
    cases h : timeFromChars v with
    | mk val err =>
      cases err with
      | none => exact Or.inr ⟨val, rfl⟩
      | some e => exact Or.inl rfl
  · intro hat hsh
    unfold keyAction
    rw [if_neg hday, if_neg hat, if_pos hsh]
    cases h : colourFromChars v with
    | mk val err =>
      cases err with
      | none => exact Or.inr ⟨val, rfl⟩
      | some e => exact Or.inl rfl
  · intro hat hsh
    unfold keyAction
    rw [if_neg hday, if_neg hat, if_neg hsh]
    rcases hsd : splitDash v with - | ⟨t1, - | ⟨t2, - | ⟨t3, rest⟩⟩⟩
    · exact Or.inl rfl
    · exact Or.inl rfl
    · dsimp only
      cases h1 : timeFromChars t1 with
      | mk v1 e1 =>
        cases h2 : timeFromChars t2 with
        | mk v2 e2 =>
          cases e1 with
          | none =>
            cases e2 with
            | none => exact Or.inr ⟨v1, v2, rfl⟩
            | some e => exact Or.inl rfl
          | some e => exact Or.inl rfl
    · exact Or.inl rfl

/-- Witness for the amended C8 at the key "@@wake" and value "0630". -/
theorem claim_C8_prefix_amended_witness :
    keyAction "@@wake".data "0630".data = .nothing ∨
      ∃ t, keyAction "@@wake".data "0630".data =
        .addEvent (.marker (("@@wake".data.dropWhile (fun c => c = '@')).asString) t) :=
  (claim_C8_prefix_amended "@@wake".data "0630".data (by decide)).1 (by decide)

end Daycircle
